import Mathlib

/-!
Verification of the MechanicalSystemBuilder repository
(src/MechanicalSystem.py) against its natural-language specification.

The source defines a base class `MechanicalSystem` (holding
`initial_conditions` and `time_span`, with an `equations` method that
raises `NotImplementedError` and a `simulate` method calling
`np.linspace(0, time_span, 1000)` followed by `scipy.integrate.odeint`),
and three subclasses `SpringMassDamper`, `SimplePendulum`,
`RotationalInertia`, each overriding `equations`.

Python floating-point scalars are idealised as an arbitrary linear
ordered field `K` (instantiable with `ℝ`, or with `ℚ` for concrete
evaluation); states are lists over `K`; Python functions that can raise
are modelled as `Except PyError` computations.  `numpy.linspace` is
embedded from its documented semantics (uniform grid, endpoint
included).  `scipy.integrate.odeint` is external library code, so the
integrator is modelled from the spec (section 4.2): a classical
fourth-order Runge-Kutta step advancing the state across each
inter-sample interval, recording the state at each requested time, with
the initial condition as the first row.  `numpy.sin` is an ambient
transcendental function, kept as an explicit parameter `pySin`
(instantiable with `Real.sin`).
-/

/-- Python exceptions that the embedded code can raise. -/
inductive PyError where
  | notImplementedError : String → PyError
  | valueError : String → PyError
deriving DecidableEq

variable {K : Type} [LinearOrderedField K]

/-- Elementwise sum of two state vectors (numpy vector addition). -/
def vadd (a b : List K) : List K := List.zipWith (· + ·) a b

/-- Scalar multiple of a state vector. -/
def smul (c : K) (a : List K) : List K := a.map (fun x => c * x)

/-- `numpy.linspace start stop num`: `num` uniformly spaced samples from
`start` to `stop` inclusive, embedded from numpy's documented semantics
(sample `i` is `start + (stop - start) * i / (num - 1)`; in exact
arithmetic the last sample equals `stop`). -/
def linspace (start stop : K) (num : ℕ) : List K :=
  (List.range num).map (fun (i : ℕ) => start + (stop - start) * (i : K) / ((num - 1 : ℕ) : K))

/-- Modelled from the spec: one integration step of
`scipy.integrate.odeint`, which is external library code.  Per spec
section 4.2 the solver advances the state across an inter-sample
interval with at least fourth-order accuracy, equivalent to a classical
Runge-Kutta scheme; we model the step as classical RK4 over the whole
interval.  A `PyError` raised by the derivative propagates. -/
def rk4Step (f : List K → K → Except PyError (List K)) (y : List K) (t h : K) :
    Except PyError (List K) :=
  match f y t with
  | Except.error e => Except.error e
  | Except.ok k1 =>
    match f (vadd y (smul (h / 2) k1)) (t + h / 2) with
    | Except.error e => Except.error e
    | Except.ok k2 =>
      match f (vadd y (smul (h / 2) k2)) (t + h / 2) with
      | Except.error e => Except.error e
      | Except.ok k3 =>
        match f (vadd y (smul h k3)) (t + h) with
        | Except.error e => Except.error e
        | Except.ok k4 =>
          Except.ok (vadd y (smul (h / 6) (vadd k1 (vadd (smul 2 k2) (vadd (smul 2 k3) k4)))))

/-- Modelled from the spec: the tail of the `odeint` trajectory, stepping
from state `y` at time `t` to each remaining requested sample time. -/
def odeintAux (f : List K → K → Except PyError (List K)) (y : List K) (t : K) :
    List K → Except PyError (List (List K))
  | [] => Except.ok []
  | t2 :: rest =>
    match rk4Step f y t (t2 - t) with
    | Except.error e => Except.error e
    | Except.ok y2 =>
      match odeintAux f y2 t2 rest with
      | Except.error e => Except.error e
      | Except.ok tail => Except.ok (y2 :: tail)

/-- Modelled from the spec: `scipy.integrate.odeint f y0 ts` (external
library code).  Returns the state at each requested sample time, the
initial value `y0` standing in the first row exactly. -/
def odeint (f : List K → K → Except PyError (List K)) (y0 : List K) :
    List K → Except PyError (List (List K))
  | [] => Except.ok []
  | t0 :: rest =>
    match odeintAux f y0 t0 rest with
    | Except.error e => Except.error e
    | Except.ok tail => Except.ok (y0 :: tail)

/-- `MechanicalSystem.simulate` (src/MechanicalSystem.py lines 14-17)
with the dynamically dispatched `self.equations` passed explicitly:
`time_points = np.linspace(0, self.time_span, 1000)` followed by
`odeint(self.equations, self.initial_conditions, time_points)`. -/
def simulate (eqns : List K → K → Except PyError (List K)) (ic : List K) (ts : K) :
    Except PyError (List K × List (List K)) :=
  let timePoints := linspace 0 ts 1000
  match odeint eqns ic timePoints with
  | Except.error e => Except.error e
  | Except.ok solution => Except.ok (timePoints, solution)

/-- Base class `MechanicalSystem` (src/MechanicalSystem.py lines 6-17). -/
structure MechanicalSystem (K : Type) where
  initial_conditions : List K
  time_span : K

/-- `MechanicalSystem.equations` (lines 11-12): always raises
`NotImplementedError`. -/
def MechanicalSystem.equations (_s : MechanicalSystem K) (_y : List K) (_t : K) :
    Except PyError (List K) :=
  Except.error (PyError.notImplementedError "This method should be overridden by subclasses")

/-- `SpringMassDamper` (lines 20-31). -/
structure SpringMassDamper (K : Type) where
  m : K
  c : K
  k : K
  initial_conditions : List K
  time_span : K

/-- `SpringMassDamper.__init__` (lines 21-25): stores the parameters with
no validation; the body contains no raise, so it always succeeds. -/
def SpringMassDamper.init (m c k : K) (ic : List K) (ts : K) :
    Except PyError (SpringMassDamper K) :=
  Except.ok ⟨m, c, k, ic, ts⟩

/-- `SpringMassDamper.equations` (lines 27-31): unpacking `x, v = y`
raises `ValueError` unless `y` has exactly two entries; otherwise
returns `[v, (-c*v - k*x) / m]`. -/
def SpringMassDamper.equations (s : SpringMassDamper K) (y : List K) (_t : K) :
    Except PyError (List K) :=
  match y with
  | [x, v] => Except.ok [v, (-s.c * v - s.k * x) / s.m]
  | _ => Except.error (PyError.valueError "unpacking requires exactly 2 values")

/-- `SimplePendulum` (lines 34-44). -/
structure SimplePendulum (K : Type) where
  l : K
  g : K
  initial_conditions : List K
  time_span : K

/-- `SimplePendulum.__init__` (lines 35-38): stores the parameters with
no validation; always succeeds. -/
def SimplePendulum.init (l g : K) (ic : List K) (ts : K) :
    Except PyError (SimplePendulum K) :=
  Except.ok ⟨l, g, ic, ts⟩

/-- `SimplePendulum.equations` (lines 40-44): returns
`[omega, -(g / l) * sin(theta)]` on a two-entry state; `pySin` is the
ambient `numpy.sin` (instantiate with `Real.sin` over `ℝ`). -/
def SimplePendulum.equations (pySin : K → K) (s : SimplePendulum K) (y : List K) (_t : K) :
    Except PyError (List K) :=
  match y with
  | [theta, omega] => Except.ok [omega, -(s.g / s.l) * pySin theta]
  | _ => Except.error (PyError.valueError "unpacking requires exactly 2 values")

/-- `RotationalInertia` (lines 47-57). -/
structure RotationalInertia (K : Type) where
  inertia : K
  torque : K
  initial_conditions : List K
  time_span : K

/-- `RotationalInertia.__init__` (lines 48-51): stores the parameters
with no validation; always succeeds. -/
def RotationalInertia.init (inertia torque : K) (ic : List K) (ts : K) :
    Except PyError (RotationalInertia K) :=
  Except.ok ⟨inertia, torque, ic, ts⟩

/-- `RotationalInertia.equations` (lines 53-57): returns
`[omega, torque / I]` on a two-entry state. -/
def RotationalInertia.equations (s : RotationalInertia K) (y : List K) (_t : K) :
    Except PyError (List K) :=
  match y with
  | [_theta, omega] => Except.ok [omega, s.torque / s.inertia]
  | _ => Except.error (PyError.valueError "unpacking requires exactly 2 values")

/-!  ## Claim C1 -/

/-- C1 counterexample: the claim says constructing `SpringMassDamper`
with `m=0`, `SimplePendulum` with `l=0`, or `RotationalInertia` with
`I=0`, or with negative parameters, fails with a `DomainError`; in the
source all three constructors store the parameters without any
validation and succeed, here shown at the concrete offending inputs. -/
theorem construction_rejects_nothing_cex :
    SpringMassDamper.init (0 : ℝ) 0.5 2.0 [1.0, 0.0] 20 = Except.ok ⟨0, 0.5, 2.0, [1.0, 0.0], 20⟩
  ∧ SimplePendulum.init (0 : ℝ) 9.81 [1.0, 0.0] 20 = Except.ok ⟨0, 9.81, [1.0, 0.0], 20⟩
  ∧ RotationalInertia.init (0 : ℝ) 1.0 [0.0, 0.0] 20 = Except.ok ⟨0, 1.0, [0.0, 0.0], 20⟩
  ∧ SpringMassDamper.init (-1 : ℝ) 0.5 2.0 [1.0, 0.0] 20 =
      Except.ok ⟨-1, 0.5, 2.0, [1.0, 0.0], 20⟩ :=
  ⟨rfl, rfl, rfl, rfl⟩

/-- C1 amended: construction performs no validation at all; every
parameter value (zero, negative, anything) is accepted, the constructor
returns the instance with the parameters stored unchanged, and no error
of any kind is raised at construction time. -/
theorem construction_no_validation {F : Type} (m c k l g inertia torque : F) (ic : List F) (ts : F) :
    SpringMassDamper.init m c k ic ts = Except.ok ⟨m, c, k, ic, ts⟩
  ∧ SimplePendulum.init l g ic ts = Except.ok ⟨l, g, ic, ts⟩
  ∧ RotationalInertia.init inertia torque ic ts = Except.ok ⟨inertia, torque, ic, ts⟩ :=
  ⟨rfl, rfl, rfl⟩

/-!  ## Claims C2, C3, C4 -/

/-- C2: for every state `[x, v]`, every time `t`, and every
`SpringMassDamper` with `m` nonzero, the derivative function returns
exactly `[v, (-c*v - k*x) / m]`. -/
theorem springMassDamper_equations_value (s : SpringMassDamper ℝ) (x v t : ℝ)
    (_hm : s.m ≠ 0) :
    s.equations [x, v] t = Except.ok [v, (-s.c * v - s.k * x) / s.m] :=
  rfl

/-- C2 witness at `m=1, c=0.5, k=2`, state `[1, 0]`, `t=0`. -/
theorem springMassDamper_equations_value_witness :
    ((1 : ℝ) ≠ 0)
  ∧ (SpringMassDamper.mk (1 : ℝ) 0.5 2.0 [1.0, 0.0] 20).equations [1, 0] 0 =
      Except.ok [0, (-(0.5 : ℝ) * 0 - 2.0 * 1) / 1] :=
  ⟨one_ne_zero, springMassDamper_equations_value _ 1 0 0 one_ne_zero⟩

/-- C3: for every state `[theta, omega]`, every time `t`, and every
`SimplePendulum` with `l` nonzero, the derivative function returns
exactly `[omega, -(g / l) * sin(theta)]`. -/
theorem simplePendulum_equations_value (s : SimplePendulum ℝ) (theta omega t : ℝ)
    (_hl : s.l ≠ 0) :
    SimplePendulum.equations Real.sin s [theta, omega] t =
      Except.ok [omega, -(s.g / s.l) * Real.sin theta] :=
  rfl

/-- C3 witness at `l=1, g=9.81`, state `[0.5, 0]`, `t=0`. -/
theorem simplePendulum_equations_value_witness :
    ((1 : ℝ) ≠ 0)
  ∧ SimplePendulum.equations Real.sin (SimplePendulum.mk (1 : ℝ) 9.81 [0.5, 0.0] 20)
      [0.5, 0] 0 = Except.ok [0, -((9.81 : ℝ) / 1) * Real.sin 0.5] :=
  ⟨one_ne_zero, simplePendulum_equations_value _ 0.5 0 0 one_ne_zero⟩

/-- C4: for every state `[theta, omega]`, every time `t`, and every
`RotationalInertia` with `I` nonzero, the derivative function returns
exactly `[omega, torque / I]`. -/
theorem rotationalInertia_equations_value (s : RotationalInertia ℝ) (theta omega t : ℝ)
    (_hI : s.inertia ≠ 0) :
    s.equations [theta, omega] t = Except.ok [omega, s.torque / s.inertia] :=
  rfl

/-- C4 witness at `I=1, torque=1`, state `[0, 0]`, `t=0`. -/
theorem rotationalInertia_equations_value_witness :
    ((1 : ℝ) ≠ 0)
  ∧ (RotationalInertia.mk (1 : ℝ) 1.0 [0.0, 0.0] 20).equations [0, 0] 0 =
      Except.ok [0, (1.0 : ℝ) / 1] :=
  ⟨one_ne_zero, rotationalInertia_equations_value _ 0 0 0 one_ne_zero⟩

/-!  ## Claim C10 -/

/-- Any list of length at least two starts with two explicit elements. -/
lemma exists_cons_cons_of_two_le_length {α : Type} (l : List α) (h : 2 ≤ l.length) :
    ∃ a b t, l = a :: b :: t := by
  match l with
  | a :: b :: t => exact ⟨a, b, t, rfl⟩
  | [] => simp at h
  | [a] => simp at h

/-- C10: calling `simulate` on a base `MechanicalSystem` whose
`equations` method is not overridden always fails with
`NotImplementedError` at the first derivative evaluation and produces
no trajectory. -/
theorem base_simulate_not_implemented (s : MechanicalSystem ℝ) :
    simulate s.equations s.initial_conditions s.time_span =
      Except.error (PyError.notImplementedError
        "This method should be overridden by subclasses") := by
  have hlen : (linspace (0 : ℝ) s.time_span 1000).length = 1000 := by
    rw [linspace, List.length_map, List.length_range]
  obtain ⟨a, b, t, ht⟩ :=
    exists_cons_cons_of_two_le_length (linspace (0 : ℝ) s.time_span 1000)
      (by rw [hlen]; norm_num)
  simp [simulate, ht, odeint, odeintAux, rk4Step, MechanicalSystem.equations]

/-!  ## Helper lemmas about `linspace`, `odeint` and `simulate` -/

/-- `linspace` always returns exactly `num` samples. -/
lemma linspace_length (start stop : K) (num : ℕ) : (linspace start stop num).length = num := by
  rw [linspace, List.length_map, List.length_range]

/-- The `i`-th sample of `linspace`. -/
lemma linspace_getElem (start stop : K) (num i : ℕ) (h : i < num) :
    (linspace start stop num)[i]? =
      some (start + (stop - start) * (i : K) / ((num - 1 : ℕ) : K)) := by
  rw [linspace, List.getElem?_map, List.getElem?_range h, Option.map_some']

/-- Unfolding a successful `simulate` run: the returned times are the
`linspace` grid and the returned states are the `odeint` output. -/
lemma simulate_ok_elim {eqns : List K → K → Except PyError (List K)} {ic : List K}
    {ts : K} {tps : List K} {sol : List (List K)}
    (h : simulate eqns ic ts = Except.ok (tps, sol)) :
    tps = linspace 0 ts 1000 ∧ odeint eqns ic (linspace 0 ts 1000) = Except.ok sol := by
  simp only [simulate] at h
  cases ho : odeint eqns ic (linspace 0 ts 1000) with
  | error e => rw [ho] at h; exact absurd h (by simp)
  | ok solution =>
    rw [ho] at h
    simp only [Except.ok.injEq, Prod.mk.injEq] at h
    exact ⟨h.1.symm, by rw [h.2]⟩

/-- A successful `odeint` run over a nonempty time grid starts with the
initial state. -/
lemma odeint_ok_cons {f : List K → K → Except PyError (List K)} {y0 : List K}
    {t0 : K} {rest : List K} {sol : List (List K)}
    (h : odeint f y0 (t0 :: rest) = Except.ok sol) : ∃ tail, sol = y0 :: tail := by
  rw [odeint] at h
  cases ha : odeintAux f y0 t0 rest with
  | error e => rw [ha] at h; exact absurd h (by simp)
  | ok tail =>
    rw [ha] at h
    simp only [Except.ok.injEq] at h
    exact ⟨tail, h.symm⟩

/-- The identity state derivative: a trivial always-succeeding
derivative function used to instantiate the generic theorems. -/
def idDeriv : List K → K → Except PyError (List K) := fun y _ => Except.ok y

/-- If the derivative function never raises, one RK4 step never raises. -/
lemma rk4Step_ok_of_total {f : List K → K → Except PyError (List K)}
    (hf : ∀ y t, ∃ r, f y t = Except.ok r) (y : List K) (t h : K) :
    ∃ y2, rk4Step f y t h = Except.ok y2 := by
  obtain ⟨k1, h1⟩ := hf y t
  obtain ⟨k2, h2⟩ := hf (vadd y (smul (h / 2) k1)) (t + h / 2)
  obtain ⟨k3, h3⟩ := hf (vadd y (smul (h / 2) k2)) (t + h / 2)
  obtain ⟨k4, h4⟩ := hf (vadd y (smul h k3)) (t + h)
  refine ⟨vadd y (smul (h / 6) (vadd k1 (vadd (smul 2 k2) (vadd (smul 2 k3) k4)))), ?_⟩
  simp only [rk4Step, h1, h2, h3, h4]

/-- If the derivative function never raises, the integration tail never
raises. -/
lemma odeintAux_ok_of_total {f : List K → K → Except PyError (List K)}
    (hf : ∀ y t, ∃ r, f y t = Except.ok r) :
    ∀ (l : List K) (y : List K) (t : K), ∃ sol, odeintAux f y t l = Except.ok sol := by
  intro l
  induction l with
  | nil => exact fun y t => ⟨[], rfl⟩
  | cons t2 rest ih =>
    intro y t
    obtain ⟨y2, hy2⟩ := rk4Step_ok_of_total hf y t (t2 - t)
    obtain ⟨tail, htail⟩ := ih y2 t2
    exact ⟨y2 :: tail, by simp only [odeintAux, hy2, htail]⟩

/-- If the derivative function never raises, `simulate` succeeds. -/
lemma simulate_ok_of_total {f : List K → K → Except PyError (List K)}
    (hf : ∀ y t, ∃ r, f y t = Except.ok r) (ic : List K) (ts : K) :
    ∃ tps sol, simulate f ic ts = Except.ok (tps, sol) := by
  obtain ⟨a, b, l, hl⟩ :=
    exists_cons_cons_of_two_le_length (linspace (0 : K) ts 1000)
      (by rw [linspace_length]; norm_num)
  obtain ⟨tail, htail⟩ := odeintAux_ok_of_total hf (b :: l) ic a
  refine ⟨linspace 0 ts 1000, ic :: tail, ?_⟩
  simp only [simulate]
  rw [hl]
  simp only [odeint, htail]

/-!  ## Claim C5 -/

/-- C5: whenever `simulate` returns a trajectory, its first state equals
the initial condition exactly. -/
theorem simulate_first_state (eqns : List ℝ → ℝ → Except PyError (List ℝ)) (ic : List ℝ)
    (ts : ℝ) (tps : List ℝ) (sol : List (List ℝ))
    (h : simulate eqns ic ts = Except.ok (tps, sol)) : sol.head? = some ic := by
  obtain ⟨htps, ho⟩ := simulate_ok_elim h
  obtain ⟨a, b, l, hl⟩ :=
    exists_cons_cons_of_two_le_length (linspace (0 : ℝ) ts 1000)
      (by rw [linspace_length]; norm_num)
  rw [hl] at ho
  obtain ⟨tail, hsol⟩ := odeint_ok_cons ho
  rw [hsol]
  rfl

/-- C5 witness: a concrete successful run of `simulate` (with the
identity state derivative, initial state `[1, 0]`, horizon `20`) whose
first trajectory row is the initial state. -/
theorem simulate_first_state_witness :
    ∃ tps sol, simulate (K := ℝ) idDeriv [1, 0] 20 = Except.ok (tps, sol)
      ∧ sol.head? = some [1, 0] := by
  obtain ⟨tps, sol, h⟩ :=
    simulate_ok_of_total (fun y t => ⟨y, rfl⟩) ([1, 0] : List ℝ) 20
  exact ⟨tps, sol, h, simulate_first_state idDeriv [1, 0] 20 tps sol h⟩

/-!  ## Claim C6 -/

/-- C6: for a strictly positive horizon, the returned time grid has
exactly 1000 samples, starts at 0, ends at the horizon inclusive, is
uniformly spaced with gap `ts / 999`, and is strictly increasing. -/
theorem simulate_times_uniform (eqns : List ℝ → ℝ → Except PyError (List ℝ)) (ic : List ℝ)
    (ts : ℝ) (tps : List ℝ) (sol : List (List ℝ)) (hts : 0 < ts)
    (h : simulate eqns ic ts = Except.ok (tps, sol)) :
    tps.length = 1000
  ∧ (∀ i : ℕ, i < 1000 → tps[i]? = some (ts * i / 999))
  ∧ tps[0]? = some 0
  ∧ tps[999]? = some ts
  ∧ (∀ i : ℕ, i + 1 < 1000 →
      ∃ a b, tps[i]? = some a ∧ tps[i + 1]? = some b ∧ b - a = ts / 999)
  ∧ List.Pairwise (· < ·) tps := by
  obtain ⟨htps, -⟩ := simulate_ok_elim h
  rw [htps]
  have hval : ∀ i : ℕ, i < 1000 →
      (linspace (0 : ℝ) ts 1000)[i]? = some (ts * i / 999) := by
    intro i hi
    rw [linspace_getElem 0 ts 1000 i hi]
    norm_num
  refine ⟨linspace_length 0 ts 1000, hval, ?_, ?_, ?_, ?_⟩
  · rw [hval 0 (by norm_num)]; norm_num
  · rw [hval 999 (by norm_num)]; norm_num
  · intro i hi
    refine ⟨ts * i / 999, ts * (i + 1) / 999,
      hval i (by omega), ?_, ?_⟩
    · rw [hval (i + 1) hi]
      exact Option.some_inj.mpr (by push_cast; ring)
    · ring
  · rw [linspace, List.pairwise_map]
    refine (List.pairwise_lt_range 1000).imp ?_
    intro a b hab
    have hcast : (a : ℝ) < b := by exact_mod_cast hab
    have h999 : (0 : ℝ) < ((1000 - 1 : ℕ) : ℝ) := by norm_num
    have := (div_lt_div_iff_of_pos_right h999).mpr
      (mul_lt_mul_of_pos_left hcast (by linarith : (0 : ℝ) < ts - 0))
    linarith

/-- C6 witness: a concrete successful run over horizon 20 with a
strictly positive horizon and a 1000-sample grid. -/
theorem simulate_times_uniform_witness :
    ∃ tps sol, (0 : ℝ) < 20 ∧ simulate (K := ℝ) idDeriv [1, 0] 20 = Except.ok (tps, sol)
      ∧ tps.length = 1000 := by
  obtain ⟨tps, sol, h⟩ :=
    simulate_ok_of_total (fun y t => ⟨y, rfl⟩) ([1, 0] : List ℝ) 20
  exact ⟨tps, sol, by norm_num, h,
    (simulate_times_uniform idDeriv [1, 0] 20 tps sol (by norm_num) h).1⟩

/-!  ## Claim C7 -/

/-- C7: simulation is deterministic; two calls to `simulate` on equal
derivative functions, equal initial states and equal time spans return
identical time and state sequences. -/
theorem simulate_deterministic (eqns1 eqns2 : List ℝ → ℝ → Except PyError (List ℝ))
    (ic1 ic2 : List ℝ) (ts1 ts2 : ℝ)
    (he : eqns1 = eqns2) (hi : ic1 = ic2) (ht : ts1 = ts2) :
    simulate eqns1 ic1 ts1 = simulate eqns2 ic2 ts2 := by
  rw [he, hi, ht]

/-- C7 witness: two calls on the same concrete input coincide. -/
theorem simulate_deterministic_witness :
    simulate (K := ℝ) idDeriv [1, 0] 20 = simulate (K := ℝ) idDeriv [1, 0] 20 :=
  simulate_deterministic idDeriv idDeriv [1, 0] [1, 0] 20 20 rfl rfl rfl

/-!  ## Claim C8 -/

/-- `vadd` truncates to the shorter operand (numpy would broadcast or
fail; the integrator only ever adds equal-length vectors). -/
lemma vadd_length (a b : List K) : (vadd a b).length = min a.length b.length :=
  List.length_zipWith _ _ _

/-- `smul` preserves length. -/
lemma smul_length (c : K) (a : List K) : (smul c a).length = a.length :=
  List.length_map _ _

/-- If the derivative function preserves length `n` on length-`n`
states, so does one RK4 step. -/
lemma rk4Step_ok_length {f : List K → K → Except PyError (List K)} {n : ℕ}
    (hf : ∀ y t r, y.length = n → f y t = Except.ok r → r.length = n)
    {y : List K} {t h : K} {y2 : List K}
    (hy : y.length = n) (hok : rk4Step f y t h = Except.ok y2) : y2.length = n := by
  cases h1 : f y t with
  | error e => simp [rk4Step, h1] at hok
  | ok k1 =>
    have hk1 : k1.length = n := hf y t k1 hy h1
    have hi1 : (vadd y (smul (h / 2) k1)).length = n := by
      simp [vadd_length, smul_length, hy, hk1]
    cases h2 : f (vadd y (smul (h / 2) k1)) (t + h / 2) with
    | error e => simp [rk4Step, h1, h2] at hok
    | ok k2 =>
      have hk2 : k2.length = n := hf _ _ k2 hi1 h2
      have hi2 : (vadd y (smul (h / 2) k2)).length = n := by
        simp [vadd_length, smul_length, hy, hk2]
      cases h3 : f (vadd y (smul (h / 2) k2)) (t + h / 2) with
      | error e => simp [rk4Step, h1, h2, h3] at hok
      | ok k3 =>
        have hk3 : k3.length = n := hf _ _ k3 hi2 h3
        have hi3 : (vadd y (smul h k3)).length = n := by
          simp [vadd_length, smul_length, hy, hk3]
        cases h4 : f (vadd y (smul h k3)) (t + h) with
        | error e => simp [rk4Step, h1, h2, h3, h4] at hok
        | ok k4 =>
          have hk4 : k4.length = n := hf _ _ k4 hi3 h4
          simp only [rk4Step, h1, h2, h3, h4, Except.ok.injEq] at hok
          rw [← hok]
          simp [vadd_length, smul_length, hy, hk1, hk2, hk3, hk4]

/-- If the derivative function preserves length `n`, every row produced
by the integration tail has length `n`. -/
lemma odeintAux_ok_length {f : List K → K → Except PyError (List K)} {n : ℕ}
    (hf : ∀ y t r, y.length = n → f y t = Except.ok r → r.length = n) :
    ∀ (l : List K) (y : List K) (t : K) (sol : List (List K)), y.length = n →
      odeintAux f y t l = Except.ok sol → ∀ row ∈ sol, row.length = n := by
  intro l
  induction l with
  | nil =>
    intro y t sol _ hok row hrow
    simp only [odeintAux, Except.ok.injEq] at hok
    rw [← hok] at hrow
    simp at hrow
  | cons t2 rest ih =>
    intro y t sol hy hok row hrow
    cases h1 : rk4Step f y t (t2 - t) with
    | error e => simp [odeintAux, h1] at hok
    | ok y2 =>
      have hy2 : y2.length = n := rk4Step_ok_length hf hy h1
      cases h2 : odeintAux f y2 t2 rest with
      | error e => simp [odeintAux, h1, h2] at hok
      | ok tail =>
        simp only [odeintAux, h1, h2, Except.ok.injEq] at hok
        rw [← hok] at hrow
        rcases List.mem_cons.mp hrow with hr | hr
        · rw [hr]; exact hy2
        · exact ih y2 t2 tail hy2 h2 row hr

/-- C8: each of the three derivative implementations succeeds only on
2-entry states and then returns a 2-entry derivative (output length
equals state length), and every trajectory returned by `simulate` for a
length-preserving derivative and a 2-entry initial state consists
exclusively of 2-entry rows. -/
theorem trajectory_two_columns :
    (∀ (s : SpringMassDamper ℝ) (y : List ℝ) (t : ℝ) (r : List ℝ),
        s.equations y t = Except.ok r → y.length = 2 ∧ r.length = 2)
  ∧ (∀ (pySin : ℝ → ℝ) (s : SimplePendulum ℝ) (y : List ℝ) (t : ℝ) (r : List ℝ),
        SimplePendulum.equations pySin s y t = Except.ok r → y.length = 2 ∧ r.length = 2)
  ∧ (∀ (s : RotationalInertia ℝ) (y : List ℝ) (t : ℝ) (r : List ℝ),
        s.equations y t = Except.ok r → y.length = 2 ∧ r.length = 2)
  ∧ (∀ (eqns : List ℝ → ℝ → Except PyError (List ℝ)) (ic : List ℝ) (ts : ℝ)
        (tps : List ℝ) (sol : List (List ℝ)),
        (∀ y t r, y.length = 2 → eqns y t = Except.ok r → r.length = 2) →
        ic.length = 2 →
        simulate eqns ic ts = Except.ok (tps, sol) →
        ∀ row ∈ sol, row.length = 2) := by
  refine ⟨?_, ?_, ?_, ?_⟩
  · intro s y t r h
    rcases y with - | ⟨a, - | ⟨b, - | ⟨c, rest⟩⟩⟩
    · simp [SpringMassDamper.equations] at h
    · simp [SpringMassDamper.equations] at h
    · simp only [SpringMassDamper.equations, Except.ok.injEq] at h
      rw [← h]
      exact ⟨rfl, rfl⟩
    · simp [SpringMassDamper.equations] at h
  · intro pySin s y t r h
    rcases y with - | ⟨a, - | ⟨b, - | ⟨c, rest⟩⟩⟩
    · simp [SimplePendulum.equations] at h
    · simp [SimplePendulum.equations] at h
    · simp only [SimplePendulum.equations, Except.ok.injEq] at h
      rw [← h]
      exact ⟨rfl, rfl⟩
    · simp [SimplePendulum.equations] at h
  · intro s y t r h
    rcases y with - | ⟨a, - | ⟨b, - | ⟨c, rest⟩⟩⟩
    · simp [RotationalInertia.equations] at h
    · simp [RotationalInertia.equations] at h
    · simp only [RotationalInertia.equations, Except.ok.injEq] at h
      rw [← h]
      exact ⟨rfl, rfl⟩
    · simp [RotationalInertia.equations] at h
  · intro eqns ic ts tps sol hf hic h
    obtain ⟨-, ho⟩ := simulate_ok_elim h
    obtain ⟨a, b, l, hl⟩ :=
      exists_cons_cons_of_two_le_length (linspace (0 : ℝ) ts 1000)
        (by rw [linspace_length]; norm_num)
    rw [hl, odeint] at ho
    cases ha : odeintAux eqns ic a (b :: l) with
    | error e => rw [ha] at ho; exact absurd ho (by simp)
    | ok tail =>
      rw [ha] at ho
      simp only [Except.ok.injEq] at ho
      intro row hrow
      rw [← ho] at hrow
      rcases List.mem_cons.mp hrow with hr | hr
      · rw [hr]; exact hic
      · exact odeintAux_ok_length hf (b :: l) ic a tail hic ha row hr

/-- C8 witness: concrete instantiations — the spring-mass-damper
derivative at a 2-entry state yields a 2-entry output, and a concrete
`simulate` run returns only 2-entry rows. -/
theorem trajectory_two_columns_witness :
    (([1, 0] : List ℝ).length = 2 ∧ ([(0 : ℝ), (-(3 : ℝ) * 0 - 2 * 1) / 1]).length = 2)
  ∧ ∃ tps sol, simulate (K := ℝ) idDeriv [1, 0] 20 = Except.ok (tps, sol)
      ∧ ∀ row ∈ sol, row.length = 2 := by
  constructor
  · exact trajectory_two_columns.1 (SpringMassDamper.mk 1 3 2 [1, 0] 20) [1, 0] 0 _ rfl
  · obtain ⟨tps, sol, h⟩ :=
      simulate_ok_of_total (fun y t => ⟨y, rfl⟩) ([1, 0] : List ℝ) 20
    refine ⟨tps, sol, h, trajectory_two_columns.2.2.2 idDeriv [1, 0] 20 tps sol ?_ rfl h⟩
    intro y t r h2 hok
    simp only [idDeriv, Except.ok.injEq] at hok
    rw [← hok]
    exact h2

/-!  ## Claim C9 -/

/-- One RK4 step of the rotational-inertia system is exact: from the
closed-form state at time `t` it reaches the closed-form state at `t2`
(the right-hand side is linear in the state and constant in time, so the
quartic-accurate step has zero truncation error). -/
lemma rot_step_exact (s : RotationalInertia ℝ) (t t2 : ℝ) :
    rk4Step s.equations [s.torque / s.inertia * t ^ 2 / 2, s.torque / s.inertia * t] t (t2 - t) =
      Except.ok [s.torque / s.inertia * t2 ^ 2 / 2, s.torque / s.inertia * t2] := by
  simp only [rk4Step, RotationalInertia.equations, vadd, smul, List.map_cons, List.map_nil,
    List.zipWith_cons_cons, List.zipWith_nil_right, List.zipWith_nil_left, Except.ok.injEq,
    List.cons.injEq, and_true]
  constructor <;> ring

/-- The integration tail of the rotational-inertia system follows the
closed form exactly at every requested sample time. -/
lemma rot_odeintAux_exact (s : RotationalInertia ℝ) :
    ∀ (rest : List ℝ) (t : ℝ),
      odeintAux s.equations [s.torque / s.inertia * t ^ 2 / 2, s.torque / s.inertia * t] t rest =
        Except.ok (rest.map fun u =>
          [s.torque / s.inertia * u ^ 2 / 2, s.torque / s.inertia * u]) := by
  intro rest
  induction rest with
  | nil => intro t; rfl
  | cons t2 rest ih =>
    intro t
    simp only [odeintAux, rot_step_exact, ih, List.map_cons]

/-- The full `odeint` trajectory of the rotational-inertia system from
rest at the origin follows the closed form exactly when the grid starts
at time 0. -/
lemma rot_odeint_exact (s : RotationalInertia ℝ) (t0 : ℝ) (rest : List ℝ) (h0 : t0 = 0) :
    odeint s.equations [0, 0] (t0 :: rest) =
      Except.ok ((t0 :: rest).map fun u =>
        [s.torque / s.inertia * u ^ 2 / 2, s.torque / s.inertia * u]) := by
  subst h0
  have ha := rot_odeintAux_exact s rest 0
  rw [show [s.torque / s.inertia * (0 : ℝ) ^ 2 / 2, s.torque / s.inertia * 0] =
      [(0 : ℝ), 0] from by norm_num] at ha
  simp only [odeint, ha, List.map_cons]
  norm_num

/-- C9: for `RotationalInertia` with inertia 1 and torque 1, initial
state `[0, 0]` and horizon 20, `simulate` succeeds and the numerical
trajectory coincides with the exact closed form `theta(t) = t^2/2`,
`omega(t) = t` (so the absolute error is 0, well within `1e-3`, at every
one of the 1000 sample times), with final state `[200, 20]` at `t = 20`. -/
theorem rotational_matches_closed_form :
    ∃ tps sol,
      simulate (RotationalInertia.mk (1 : ℝ) 1 [0, 0] 20).equations [0, 0] 20 =
        Except.ok (tps, sol)
    ∧ sol = tps.map (fun u => [u ^ 2 / 2, u])
    ∧ tps.length = 1000 ∧ sol.length = 1000
    ∧ tps[999]? = some 20
    ∧ sol[999]? = some [200, 20]
    ∧ ∀ i : ℕ, i < 1000 → ∃ t th om, tps[i]? = some t ∧ sol[i]? = some [th, om]
        ∧ |th - t ^ 2 / 2| ≤ 1 / 1000 ∧ |om - t| ≤ 1 / 1000 := by
  obtain ⟨a, b, l, hl⟩ :=
    exists_cons_cons_of_two_le_length (linspace (0 : ℝ) 20 1000)
      (by rw [linspace_length]; norm_num)
  have ha0 : a = 0 := by
    have h0 := linspace_getElem (0 : ℝ) 20 1000 0 (by norm_num)
    rw [hl] at h0
    simpa using h0
  have hmain : odeint (RotationalInertia.mk (1 : ℝ) 1 [0, 0] 20).equations [0, 0]
      (linspace 0 20 1000) =
      Except.ok ((linspace (0 : ℝ) 20 1000).map fun u => [u ^ 2 / 2, u]) := by
    rw [hl, rot_odeint_exact _ a (b :: l) ha0]
    simp only [Except.ok.injEq]
    apply List.map_congr_left
    intro u _
    norm_num
  refine ⟨linspace 0 20 1000, (linspace (0 : ℝ) 20 1000).map (fun u => [u ^ 2 / 2, u]),
    ?_, rfl, linspace_length 0 20 1000, ?_, ?_, ?_, ?_⟩
  · simp only [simulate, hmain]
  · rw [List.length_map, linspace_length]
  · rw [linspace_getElem 0 20 1000 999 (by norm_num)]
    norm_num
  · rw [List.getElem?_map, linspace_getElem 0 20 1000 999 (by norm_num)]
    norm_num
  · intro i hi
    refine ⟨0 + (20 - 0) * (i : ℝ) / ((1000 - 1 : ℕ) : ℝ),
      (0 + (20 - 0) * (i : ℝ) / ((1000 - 1 : ℕ) : ℝ)) ^ 2 / 2,
      0 + (20 - 0) * (i : ℝ) / ((1000 - 1 : ℕ) : ℝ),
      linspace_getElem 0 20 1000 i hi, ?_, ?_, ?_⟩
    · rw [List.getElem?_map, linspace_getElem 0 20 1000 i hi]
      rfl
    · simp
    · simp
